import Mathlib

/-
Verification development for the newsaggregator ingestion / enrichment /
storage pipeline.  The definitions below are a shallow embedding of the
TypeScript modules `src/lib/blob-storage.ts`, `src/lib/ai.ts`,
`src/lib/news-api.ts` and `src/app/api/articles/route.ts`.

Modelling conventions:
 - JavaScript strings are Lean `String`s; the value `""` also stands for
   `null` / `undefined` in the string-typed fields where the source only
   ever distinguishes truthy from falsy (`x || y`).
 - The Vercel blob store is modelled as a list of entries keyed by
   pathname.  Each entry also records what a `fetch` of its download URL
   returns (parsed article, malformed body, HTTP error status, or a
   network/timeout failure), which lets the per-entry error handling of
   the source be embedded faithfully.  `put` / `del` failures are
   modelled by membership of the pathname in `putFails` / `delFails`.
 - Asynchronous background work is embedded by running the scheduled
   task to completion immediately after the scheduling point; the
   observable effects relevant here (durable writes, the in-progress
   set, the collected error list) do not depend on interleaving because
   each task only touches its own article id.
 - JavaScript `Number(x)` is modelled for integer-literal strings
   (optional sign + digits); any other non-empty string coerces to NaN,
   represented as `none`.
-/

set_option autoImplicit false

namespace NewsAgg

/-! ## Generic JS-style string helpers -/

/-- ASCII lower-casing of a character (as done by `String.toLowerCase`
on the ASCII fragment used throughout the pipeline). -/
def asciiLower (c : Char) : Char :=
  if 65 ≤ c.toNat ∧ c.toNat ≤ 90 then Char.ofNat (c.toNat + 32) else c

/-- `s.toLowerCase()` on ASCII strings. -/
def jsToLower (s : String) : String :=
  String.mk (s.data.map asciiLower)

/-- `s.trim()`. -/
def jsTrim (s : String) : String :=
  String.mk (((s.data.dropWhile Char.isWhitespace).reverse.dropWhile Char.isWhitespace).reverse)

/-- Substring search used to embed `hay.includes(needle)`. -/
def containsSubAux (pat : List Char) : List Char → Bool
  | [] => pat.isEmpty
  | c :: rest => pat.isPrefixOf (c :: rest) || containsSubAux pat rest

/-- `hay.includes(needle)` (JavaScript `String.prototype.includes`). -/
def jsIncludes (hay needle : String) : Bool :=
  containsSubAux needle.data hay.data

/-- Splits a character list at the first occurrence of `pat`,
returning the parts before and after it. -/
def splitFirstAux (pat : List Char) : List Char → Option (List Char × List Char)
  | [] => if pat.isEmpty then some ([], []) else none
  | c :: rest =>
    if pat.isPrefixOf (c :: rest) then some ([], (c :: rest).drop pat.length)
    else match splitFirstAux pat rest with
      | some (pre, post) => some (c :: pre, post)
      | none => none

/-- Removes the first occurrence of `pat` (embeds the single-replacement
semantics of JavaScript `s.replace(".json", "")`). -/
def removeFirstOcc (pat : List Char) : List Char → List Char
  | [] => []
  | c :: rest =>
    if pat.isPrefixOf (c :: rest) then (c :: rest).drop pat.length
    else c :: removeFirstOcc pat rest

/-- The characters after the last `/`, i.e. `p.split("/")` followed by
taking the last element. -/
def afterLastSlash (l : List Char) : List Char :=
  (l.reverse.takeWhile (fun c => !(c == '/'))).reverse

/-- `x || y` on JS strings, where `""` models every falsy value. -/
def jsOr (a b : String) : String :=
  if a ≠ "" then a else b

/-- Order-preserving de-duplication keeping first occurrences
(the effect of `[...new Set(xs)]`). -/
def dedupFirstAux {α : Type} [DecidableEq α] (seen : List α) : List α → List α
  | [] => []
  | x :: xs =>
    if x ∈ seen then dedupFirstAux seen xs
    else x :: dedupFirstAux (x :: seen) xs

/-- `Set.add`: no-op when the element is already present. -/
def setAdd (l : List String) (k : String) : List String :=
  if l.contains k then l else l ++ [k]

/-- `Set.delete`: removes the element (a no-op when absent). -/
def setDelete (l : List String) (k : String) : List String :=
  l.filter (fun x => !(x == k))

/-- ASCII digit test. -/
def isDigitChar (c : Char) : Bool := 48 ≤ c.toNat && c.toNat ≤ 57

/-- The numeric value of a digit string. -/
def digitsValue (l : List Char) : Nat :=
  l.foldl (fun n c => n * 10 + (c.toNat - 48)) 0

/-- `Number(s)` for a string: empty / whitespace-only gives `0`,
an optional-sign integer literal gives its value, anything else is NaN
(modelled as `none`). -/
def jsStringToNumber (s : String) : Option Int :=
  let t := (jsTrim s).data
  if t.isEmpty then some 0
  else
    match t with
    | '-' :: rest =>
      if !rest.isEmpty && rest.all isDigitChar then some (-(digitsValue rest : Int)) else none
    | '+' :: rest =>
      if !rest.isEmpty && rest.all isDigitChar then some (digitsValue rest) else none
    | _ => if t.all isDigitChar then some (digitsValue t) else none

/-! ## URL normalization (`src/lib/blob-storage.ts`) -/

/-- The pieces of a parsed absolute URL that `checkDuplicateArticle`
reads off the WHATWG `URL` object: `protocol` (with the trailing `:`),
`hostname` and `pathname`. -/
structure ParsedUrl where
  protocol : String
  hostname : String
  pathname : String
deriving DecidableEq

/-- Parser model for `new URL(url)` on `scheme://host/path?query#hash`
shapes; any string without a `scheme://host` prefix fails (throws),
matching the `catch` fallback in `normalizeUrl`. -/
def parseUrl (url : String) : Option ParsedUrl :=
  match splitFirstAux "://".data url.data with
  | none => none
  | some (scheme, rest) =>
    if scheme.isEmpty then none
    else
      let hostChars := rest.takeWhile (fun c => !(c == '/' || c == '?' || c == '#'))
      let after := rest.drop hostChars.length
      let pathChars :=
        match after with
        | '/' :: _ => after.takeWhile (fun c => !(c == '?' || c == '#'))
        | _ => ['/']
      if hostChars.isEmpty then none
      else some
        { protocol := String.mk (scheme.map asciiLower) ++ ":"
          hostname := String.mk (hostChars.map asciiLower)
          pathname := String.mk pathChars }

/-- A kernel-friendly `s.startsWith pre`. -/
def jsStartsWith (s pre : String) : Bool :=
  pre.data.isPrefixOf s.data

/-- `.replace(/\/$/, '')`: removes one trailing slash. -/
def stripTrailingSlash (s : String) : String :=
  if s.data.getLast? == some '/' then String.mk s.data.dropLast else s

/-- `normalizeUrl` from `checkDuplicateArticle`
(src/lib/blob-storage.ts:130-140): keeps protocol, hostname and
pathname, drops query and hash, strips one trailing slash and
lower-cases; on a parse failure it only lower-cases.  Note that the
`www.` prefix of the hostname is NOT removed here. -/
def normalizeUrl (url : String) : String :=
  match parseUrl url with
  | some u => jsToLower (stripTrailingSlash (u.protocol ++ "//" ++ u.hostname ++ u.pathname))
  | none => jsToLower url

/-- `.replace(/^https?:/, '')` applied to a normalized URL
(src/lib/blob-storage.ts:151). -/
def stripProtocol (s : String) : String :=
  if jsStartsWith s "https:" then String.mk (s.data.drop 6)
  else if jsStartsWith s "http:" then String.mk (s.data.drop 5)
  else s

/-- Title normalization inside `similarTitles`: lower-case, strip
characters outside `[\w\s]`, trim. -/
def titleNormalize (s : String) : String :=
  jsTrim (String.mk ((jsToLower s).data.filter
    (fun c => c.isAlphanum || c == '_' || c.isWhitespace)))

/-- `similarTitles` (src/lib/blob-storage.ts:181-201): equal after
normalization, or one contained in the other. -/
def similarTitles (t1 t2 : String) : Bool :=
  let n1 := titleNormalize t1
  let n2 := titleNormalize t2
  n1 == n2 || jsIncludes n1 n2 || jsIncludes n2 n1

/-- One hexadecimal digit, upper-case, as produced by
`encodeURIComponent`. -/
def hexDigitChar (n : Nat) : Char :=
  if n < 10 then Char.ofNat (48 + n) else Char.ofNat (55 + n)

/-- Percent-encoding of one ASCII character following
`encodeURIComponent` (unreserved set `A-Z a-z 0-9 - _ . ! ~ * ' ( )`). -/
def encodeUriComponentChar (c : Char) : List Char :=
  if c.isAlphanum || c == '-' || c == '_' || c == '.' || c == '!' ||
      c == '~' || c == '*' || c == '(' || c == ')' || c.toNat == 39 then
    [c]
  else
    ['%', hexDigitChar (c.toNat / 16), hexDigitChar (c.toNat % 16)]

/-- `encodeURIComponent` on the ASCII strings handled by the pipeline. -/
def encodeUriComponentModel (s : String) : String :=
  String.mk (s.data.flatMap encodeUriComponentChar)

/-! ## Data model (`src/types/article.ts`) -/

/-- A persisted `storedAt` timestamp: either a string `new Date` can
parse (carrying its epoch milliseconds) or an unparsable one
(`getTime()` yields NaN). -/
inductive JsonDate where
  | parsable (ms : Int)
  | unparsable (raw : String)
deriving DecidableEq

/-- `ArticleMetrics`: the numeric scores and categorical labels.
`engagementScore` and `bias` are optional in the TypeScript interface
and absent from some producer objects, hence `Option`. -/
structure ArticleMetrics where
  clickbaitScore : Int
  biasScore : Int
  targetGeneration : String
  politicalLeaning : String
  sentimentScore : Int
  sentimentTone : String
  readabilityScore : Int
  readingLevel : String
  emotionalTone : String
  engagementScore : Option Int
  bias : Option Int
deriving DecidableEq

/-- The central `Article` entity.  `metrics` is optional because a
record parsed back from storage may lack the field, which is exactly
the truthiness the self-healing check `article.metrics && !article.analyzed`
tests. -/
structure Article where
  id : String
  title : String
  summary : String
  content : String
  url : String
  imageUrl : String
  source : String
  publishedAt : String
  metrics : Option ArticleMetrics
  storedAt : Option JsonDate
  analyzed : Bool
  aiSummary : Option String
  categories : List String
deriving DecidableEq

/-! ## Blob store model -/

/-- What fetching a stored blob's download URL returns. -/
inductive BlobFetch where
  | ok (a : Article)
  | malformed
  | httpStatus (code : Nat)
  | netFail
deriving DecidableEq

/-- One stored blob. -/
structure BlobEntry where
  pathname : String
  fetch : BlobFetch
deriving DecidableEq

/-- The blob store together with the failure behaviour of `put` and
`del` per pathname. -/
structure BlobStore where
  entries : List BlobEntry
  putFails : List String
  delFails : List String
deriving DecidableEq

/-- `ARTICLES_PREFIX`. -/
def articlesRoot : String := "articles/"

/-- The storage key for an article id: `articles/<id>.json`. -/
def articlePath (id : String) : String := articlesRoot ++ id ++ ".json"

/-- The download URL the store reports for a pathname. -/
def blobUrl (pathname : String) : String :=
  "https://blob.example.com/" ++ pathname

/-- `list({ prefix })`: entries whose pathname starts with the prefix,
in store order. -/
def listWithPrefix (st : BlobStore) (pre : String) : List BlobEntry :=
  st.entries.filter (fun e => jsStartsWith e.pathname pre)

/-- A successful `put` with `allowOverwrite`: key-value update. -/
def putBlob (st : BlobStore) (path : String) (a : Article) : BlobStore :=
  { st with entries := st.entries.filter (fun e => !(e.pathname == path)) ++
      [{ pathname := path, fetch := .ok a }] }

/-- `del(path)` as wrapped by `deleteArticleFromBlob`: a failing delete
is caught and logged, leaving the store unchanged. -/
def delBlob (st : BlobStore) (path : String) : BlobStore :=
  if st.delFails.contains path then st
  else { st with entries := st.entries.filter (fun e => !(e.pathname == path)) }

/-! ## Storage access layer (`src/lib/blob-storage.ts`) -/

/-- Id extraction from a blob pathname:
`pathname.split("/")` last element with its first `".json"` removed. -/
def extractIdFromPath (p : String) : String :=
  String.mk (removeFirstOcc ".json".data (afterLastSlash p.data))

/-- Whether rebuilding `articles/<extracted id>.json` gives back the
pathname (true for every pathname `storeArticle` itself produces). -/
def pathRoundTrips (p : String) : Bool :=
  articlePath (extractIdFromPath p) == p

/-- First pass of `checkDuplicateArticle`
(src/lib/blob-storage.ts:68-88): per blob, skip the candidate's own id,
then report a duplicate when the pathname contains the URL-encoded
candidate URL. -/
def dupByPath (article : Article) : List BlobEntry → Option String
  | [] => none
  | e :: rest =>
    if extractIdFromPath e.pathname == article.id then dupByPath article rest
    else if jsIncludes e.pathname (encodeUriComponentModel article.url) then
      some (blobUrl e.pathname)
    else dupByPath article rest

/-- Second pass of `checkDuplicateArticle`
(src/lib/blob-storage.ts:93-170) over the first 10 blobs: fetch each
body; a network failure or malformed JSON skips the entry, an HTTP 429
aborts the whole search reporting no duplicate, any other non-ok status
skips the entry; otherwise compare normalized URLs, then normalized
URLs with the protocol stripped, then fall back to the title
similarity check. -/
def dupByContent (article : Article) : List BlobEntry → Option String
  | [] => none
  | e :: rest =>
    match e.fetch with
    | .netFail => dupByContent article rest
    | .malformed => dupByContent article rest
    | .httpStatus code =>
      if code == 429 then none else dupByContent article rest
    | .ok existing =>
      let normalizedNewUrl := normalizeUrl article.url
      let normalizedExistingUrl := if existing.url ≠ "" then normalizeUrl existing.url else ""
      if normalizedNewUrl == normalizedExistingUrl then some (blobUrl e.pathname)
      else if stripProtocol normalizedNewUrl == stripProtocol normalizedExistingUrl then
        some (blobUrl e.pathname)
      else if existing.title ≠ "" && article.title ≠ "" &&
          similarTitles existing.title article.title then
        some (blobUrl e.pathname)
      else dupByContent article rest

/-- `checkDuplicateArticle` (src/lib/blob-storage.ts:57-178): list at
most 50 blobs under the article prefix; path pass first, then the
content pass over the first 10. -/
def checkDuplicateArticle (st : BlobStore) (article : Article) : Option String :=
  let blobs := (listWithPrefix st articlesRoot).take 50
  if blobs.isEmpty then none
  else
    match dupByPath article blobs with
    | some u => some u
    | none => dupByContent article (blobs.take 10)

/-- `storeArticle` (src/lib/blob-storage.ts:12-53).  For an unanalyzed
article the duplicate search runs first and a hit returns the existing
URL without writing.  Otherwise the article is stamped with
`storedAt = now` and `put`; a `put` failure is caught and the function
returns the sentinel string `error:<id>` with the store unchanged. -/
def storeArticle (st : BlobStore) (now : Int) (a : Article) : String × BlobStore :=
  let doPut : String × BlobStore :=
    let stamped := { a with storedAt := some (.parsable now) }
    let path := articlePath a.id
    if st.putFails.contains path then ("error:" ++ a.id, st)
    else (blobUrl path, putBlob st path stamped)
  if !a.analyzed then
    match checkDuplicateArticle st a with
    | some existingUrl => (existingUrl, st)
    | none => doPut
  else doPut

/-- `storeArticles` (src/lib/blob-storage.ts:204-211): sequential
`storeArticle` over the batch (the per-item result is discarded, so one
item's failure cannot stop the rest). -/
def storeArticles (st : BlobStore) (now : Int) (articles : List Article) : BlobStore :=
  articles.foldl (fun s a => (storeArticle s now a).2) st

/-- `getArticleFromBlob` (src/lib/blob-storage.ts:214-266): list by the
exact key prefix, fetch the first match; a missing record, non-ok
status, network failure or malformed JSON all collapse to `none`; on
success, a record with a populated `metrics` object but
`analyzed = false` is returned with `analyzed` coerced to `true`. -/
def getArticleFromBlob (st : BlobStore) (id : String) : Option Article :=
  match (listWithPrefix st (articlePath id)).head? with
  | none => none
  | some e =>
    match e.fetch with
    | .ok raw =>
      if raw.metrics.isSome && !raw.analyzed then some { raw with analyzed := true }
      else some raw
    | .malformed => none
    | .httpStatus _ => none
    | .netFail => none

/-- `listArticlesFromBlob` (src/lib/blob-storage.ts:269-334): first 50
entries under the prefix; failed or malformed entries are skipped; the
same `analyzed` self-healing as `getArticleFromBlob` applies. -/
def listArticlesFromBlob (st : BlobStore) : List Article :=
  ((listWithPrefix st articlesRoot).take 50).filterMap (fun e =>
    match e.fetch with
    | .ok raw =>
      some (if raw.metrics.isSome && !raw.analyzed then { raw with analyzed := true } else raw)
    | _ => none)

/-- `deleteArticleFromBlob` (src/lib/blob-storage.ts:337-343):
best-effort delete of `articles/<id>.json`; a failure is swallowed. -/
def deleteArticleFromBlob (st : BlobStore) (id : String) : BlobStore :=
  delBlob st (articlePath id)

/-- `MAX_AGE_MS`: one hour. -/
def maxAgeMs : Int := 3600000

/-- Whether `cleanupOldArticles` classifies an entry as expired: the
body fetches and parses, `storedAt` is present and parseable, and the
age strictly exceeds the TTL.  A missing `storedAt` skips the entry and
an unparsable one yields NaN, for which `ageMs > MAX_AGE_MS` is false. -/
def entryIsExpired (now : Int) (e : BlobEntry) : Bool :=
  match e.fetch with
  | .ok raw =>
    match raw.storedAt with
    | some (.parsable t) => decide (now - t > maxAgeMs)
    | some (.unparsable _) => false
    | none => false
  | _ => false

/-- One iteration of the `cleanupOldArticles` loop
(src/lib/blob-storage.ts:353-411): fetch/parse failures skip the
entry; an expired entry is deleted via `deleteArticleFromBlob` (whose
own failure is swallowed) and the counter is incremented regardless. -/
def cleanupStep (now : Int) (acc : BlobStore × Nat) (e : BlobEntry) : BlobStore × Nat :=
  if entryIsExpired now e then
    (deleteArticleFromBlob acc.1 (extractIdFromPath e.pathname), acc.2 + 1)
  else acc

/-- `cleanupOldArticles` (src/lib/blob-storage.ts:346-419): iterate the
listing snapshot, deleting expired entries and returning the counter. -/
def cleanupOldArticles (st : BlobStore) (now : Int) : BlobStore × Nat :=
  (listWithPrefix st articlesRoot).foldl (cleanupStep now) (st, 0)

/-! ## Enrichment response validation (`src/lib/ai.ts`) -/

/-- A JavaScript value as found in the parsed enrichment response. -/
inductive JSValue where
  | num (n : Int)
  | str (s : String)
  | bool (b : Bool)
  | null
  | undef
deriving DecidableEq

/-- JS truthiness. -/
def jsTruthy : JSValue → Bool
  | .num n => !(n == 0)
  | .str s => !(s == "")
  | .bool b => b
  | .null => false
  | .undef => false

/-- `Number(v)`: `none` models NaN. -/
def jsToNumber : JSValue → Option Int
  | .num n => some n
  | .str s => jsStringToNumber s
  | .bool b => some (if b then 1 else 0)
  | .null => some 0
  | .undef => none

/-- `String(v || '')`. -/
def jsValueToDisplayString : JSValue → String
  | .num n => if n == 0 then "" else toString n
  | .str s => s
  | .bool b => if b then "true" else ""
  | .null => ""
  | .undef => ""

/-- `validateNumber` (src/lib/ai.ts:166-170): coerce with `Number`,
fall back to the default on NaN, otherwise clamp into `[vmin, vmax]`
via `Math.min(max, Math.max(min, num))`. -/
def validateNumber (value : JSValue) (vmin vmax deflt : Int) : Int :=
  match jsToNumber value with
  | none => deflt
  | some n => min vmax (max vmin n)

/-- `validateString` (src/lib/ai.ts:173-179): stringify and trim, use
the default for an empty result, otherwise the first case-insensitive
match in the allowed list, else the default. -/
def validateString (value : JSValue) (allowed : List String) (deflt : String) : String :=
  let str := jsTrim (jsValueToDisplayString value)
  if str == "" then deflt
  else
    match allowed.find? (fun v => jsToLower v == jsToLower str) with
    | some m => m
    | none => deflt

/-- The fields read off the parsed enrichment response object
(src/lib/ai.ts:100-138).  A missing field is `JSValue.undef`;
`categories` is `some _` exactly when `Array.isArray` holds. -/
structure RawAIResponse where
  clickbaitScore : JSValue
  biasScore : JSValue
  targetGeneration : JSValue
  politicalLeaning : JSValue
  sentimentScore : JSValue
  sentimentTone : JSValue
  readabilityScore : JSValue
  readingLevel : JSValue
  emotionalTone : JSValue
  emotionTone : JSValue
  categories : Option (List String)
deriving DecidableEq

/-- The closed category set shared by ai.ts and news-api.ts. -/
def validCategories : List String :=
  ["sport", "economy", "politics", "war", "technology", "religion",
   "work", "travel", "health", "entertainment", "science", "education",
   "environment", "fashion", "food", "lifestyle", "other"]

/-- The metrics-validation block of `analyzeArticle`
(src/lib/ai.ts:100-120).  `engagementScore` and `bias` are not set by
this producer. -/
def validateAIMetrics (m : RawAIResponse) : ArticleMetrics :=
  { clickbaitScore := validateNumber m.clickbaitScore 0 100 50
    biasScore := validateNumber m.biasScore 0 100 50
    targetGeneration := validateString m.targetGeneration
      ["Baby Boomers", "Generation X", "Millennials", "Generation Z", "Generation Alpha"]
      "Millennials"
    politicalLeaning := validateString m.politicalLeaning
      ["Left", "Center-left", "Neutral", "Center-right", "Right"] "Neutral"
    sentimentScore := validateNumber m.sentimentScore 0 100 50
    sentimentTone := validateString m.sentimentTone
      ["Positive", "Negative", "Neutral", "Alarming", "Hopeful", "Mixed"] "Neutral"
    readabilityScore := validateNumber m.readabilityScore 0 100 70
    readingLevel := validateString m.readingLevel
      ["Elementary", "Middle School", "High School", "College", "Graduate"] "High School"
    emotionalTone := validateString
      (if jsTruthy m.emotionalTone then m.emotionalTone else m.emotionTone)
      ["Neutral", "Happy", "Sad", "Angry", "Fearful", "Surprised", "Disgusted"] "Neutral"
    engagementScore := none
    bias := none }

/-- Category extraction of `analyzeArticle` (src/lib/ai.ts:126-143):
lower-case, keep members of the closed set, first three, and fall back
to `["other"]` when nothing valid remains. -/
def extractAICategories (m : RawAIResponse) : List String :=
  let cats :=
    match m.categories with
    | some arr => ((arr.map jsToLower).filter (fun c => validCategories.contains c)).take 3
    | none => []
  if cats.isEmpty then ["other"] else cats

/-- The value `analyzeArticle` resolves with on success
(src/lib/ai.ts:145-150). -/
structure AnalysisResult where
  metrics : ArticleMetrics
  summary : String
  aiSummary : String
  categories : List String
deriving DecidableEq

/-- `analyzeArticle` (src/lib/ai.ts:42-163) given the outcome of the
model call: a missing key, transport failure or unextractable /
unparsable JSON is a hard throw (`Except.error`); a parsed response is
validated field-wise and never throws.  The `aiSummary` argument is the
result of the separate `generateSummary` call, which catches its own
failures and always resolves. -/
def analyzeArticleModel (content : String) (resp : Except Unit RawAIResponse)
    (aiSummary : String) : Except Unit AnalysisResult :=
  match resp with
  | .error _ => .error ()
  | .ok r =>
    .ok { metrics := validateAIMetrics r
          summary := String.mk (content.data.take 200) ++
            (if 200 < content.data.length then "..." else "")
          aiSummary := aiSummary
          categories := extractAICategories r }

/-! ## Source fetcher and enrichment orchestration (`src/lib/news-api.ts`) -/

/-- One raw NewsData.io item.  `""` models `null` / missing string
fields (they are only ever tested for truthiness). -/
structure NewsDataArticle where
  article_id : String
  title : String
  link : String
  description : String
  content : String
  pubDate : String
  image_url : String
  source_id : String
  category : List String
deriving DecidableEq

/-- `mapCategory` inside `fetchTopHeadlines`
(src/lib/news-api.ts:227-246). -/
def mapCategory (cat : String) : String :=
  let lowerCat := jsToLower cat
  if ["sports", "sport"].contains lowerCat then "sport"
  else if ["business", "economics", "economy"].contains lowerCat then "economy"
  else if ["politics"].contains lowerCat then "politics"
  else if ["war", "conflict"].contains lowerCat then "war"
  else if ["technology", "tech"].contains lowerCat then "technology"
  else if ["science"].contains lowerCat then "science"
  else if ["religion", "faith"].contains lowerCat then "religion"
  else if ["work", "jobs", "career"].contains lowerCat then "work"
  else if ["travel", "tourism"].contains lowerCat then "travel"
  else if ["health", "medicine", "healthcare"].contains lowerCat then "health"
  else if ["entertainment", "celebrities", "movies", "music"].contains lowerCat then
    "entertainment"
  else if ["education"].contains lowerCat then "education"
  else if ["environment", "climate"].contains lowerCat then "environment"
  else if ["fashion", "style"].contains lowerCat then "fashion"
  else if ["food", "cooking", "restaurants"].contains lowerCat then "food"
  else if ["lifestyle"].contains lowerCat then "lifestyle"
  else "other"

/-- Category list for a headline item (src/lib/news-api.ts:249-257):
map, de-duplicate keeping first occurrences, keep members of the closed
set, first three; `["other"]` when the raw list is empty. -/
def headlineCategories (cats : List String) : List String :=
  if cats.isEmpty then ["other"]
  else (((dedupFirstAux [] (cats.map mapCategory)).filter
    (fun c => validCategories.contains c)).take 3)

/-- The zeroed placeholder metrics of a freshly fetched article
(src/lib/news-api.ts:269-281). -/
def zeroMetrics : ArticleMetrics :=
  { clickbaitScore := 0, biasScore := 0, targetGeneration := "",
    politicalLeaning := "", sentimentScore := 0, sentimentTone := "neutral",
    readabilityScore := 0, readingLevel := "", emotionalTone := "neutral",
    engagementScore := some 0, bias := some 0 }

/-- The pending article built for a raw item
(src/lib/news-api.ts:222-284): id is `article_id || uuid`, content is
`content || description || ""`, the object carries zeroed metrics,
`analyzed = false` and no `storedAt` field.  There is no title check. -/
def mkPendingArticle (raw : NewsDataArticle) (uuid : String) : Article :=
  { id := jsOr raw.article_id uuid
    title := raw.title
    summary := raw.description
    content := jsOr raw.content raw.description
    url := raw.link
    imageUrl := raw.image_url
    source := jsOr raw.source_id "Unknown"
    publishedAt := raw.pubDate
    metrics := some zeroMetrics
    storedAt := none
    analyzed := false
    aiSummary := none
    categories := headlineCategories raw.category }

/-- The in-flight key `fetchTopHeadlines` adds before scheduling
background analysis (src/lib/news-api.ts:304-305):
`article.article_id || article.link`. -/
def inFlightKey (raw : NewsDataArticle) : String :=
  jsOr raw.article_id raw.link

/-- The object-spread merge `{...article.metrics, ...metrics}`
(src/lib/news-api.ts:362-365): every field the enrichment result
carries overwrites; `engagementScore` and `bias` are absent from the
ai.ts result object, so the prior values survive. -/
def mergeMetrics (old new : ArticleMetrics) : ArticleMetrics :=
  { new with
    engagementScore := match new.engagementScore with
      | some v => some v
      | none => old.engagementScore
    bias := match new.bias with
      | some v => some v
      | none => old.bias }

/-- `analyzeArticleInBackground` (src/lib/news-api.ts:342-398), given
the outcome of the `analyzeArticle` call.  On success the record is
updated with the merged metrics, `analyzed = true`, the AI summary and
categories, and re-stored.  On an analysis failure the inner catch
re-stores the record with `analyzed = true` and fallback categories.
The `finally` block removes `article.id` from the in-progress set on
every path; `storeArticle` never throws, so the outer catch (and hence
the caller's `.catch`) is unreachable and the task always resolves with
the updated article. -/
def analyzeArticleInBackground (st : BlobStore) (inProg : List String) (now : Int)
    (article : Article) (ai : Except Unit AnalysisResult) :
    BlobStore × List String × Article :=
  let updated : Article :=
    match ai with
    | .ok r =>
      { article with
        metrics := some (match article.metrics with
          | some old => mergeMetrics old r.metrics
          | none => r.metrics)
        summary := if r.summary ≠ "" then r.summary else article.summary
        aiSummary := some r.aiSummary
        analyzed := true
        categories := if r.categories ≠ [] then r.categories else article.categories }
    | .error _ =>
      { article with
        analyzed := true
        categories := if article.categories ≠ [] then article.categories else ["other"] }
  ((storeArticle st now updated).2, setDelete inProg article.id, updated)

/-- The state threaded through the `fetchTopHeadlines` item loop: the
blob store, the module-level `articlesInProgress` set, and the
`processedArticles` / `errors` accumulators. -/
structure FetchState where
  store : BlobStore
  inProg : List String
  articles : List Article
  errors : List String
deriving DecidableEq

/-- One iteration of the `fetchTopHeadlines` loop
(src/lib/news-api.ts:220-326) for a raw item, with the fresh uuid and
the enrichment-call outcome as oracles.  If `getArticleFromBlob` finds
the id (or link) the existing record is returned.  Otherwise the
pending article is stored (its result value is discarded), the
in-flight key is added, background analysis is run to completion when
the content is non-empty, and the pending article is appended to the
results.  No error is ever recorded on this path because neither
`storeArticle` nor the background task throws. -/
def processHeadlineItem (now : Int) (s : FetchState) (raw : NewsDataArticle)
    (uuid : String) (ai : Except Unit AnalysisResult) : FetchState :=
  let newArticle := mkPendingArticle raw uuid
  match getArticleFromBlob s.store (inFlightKey raw) with
  | some existing => { s with articles := s.articles ++ [existing] }
  | none =>
    let st1 := (storeArticle s.store now newArticle).2
    let inProg1 := setAdd s.inProg (inFlightKey raw)
    if newArticle.content ≠ "" then
      let r := analyzeArticleInBackground st1 inProg1 now newArticle ai
      { store := r.1, inProg := r.2.1,
        articles := s.articles ++ [newArticle], errors := s.errors }
    else
      { store := st1, inProg := inProg1,
        articles := s.articles ++ [newArticle], errors := s.errors }

/-- The whole `fetchTopHeadlines` item loop over a successful API
response. -/
def processHeadlineItems (now : Int)
    (items : List (NewsDataArticle × String × Except Unit AnalysisResult))
    (init : FetchState) : FetchState :=
  items.foldl (fun s item => processHeadlineItem now s item.1 item.2.1 item.2.2) init

/-! ## List endpoint (`src/app/api/articles/route.ts`) -/

/-- The JSON payload of the list endpoint. -/
structure RouteResponse where
  articles : List Article
  errors : List String
  totalArticles : Nat
  hasMore : Bool
deriving DecidableEq

/-- The lowercase `title-source` key used by the route's dedup passes. -/
def titleSourceKey (a : Article) : String :=
  jsToLower a.title ++ "-" ++ jsToLower a.source

/-- The in-memory dedup pass of the route
(src/app/api/articles/route.ts:81-95): keep an article when neither its
lowercased URL nor its `title-source` key has been seen. -/
def dedupRouteAux (seenUrls seenTitles : List String) (acc : List Article) :
    List Article → List Article
  | [] => acc
  | a :: rest =>
    if !(seenUrls.contains (jsToLower a.url)) && !(seenTitles.contains (titleSourceKey a)) then
      dedupRouteAux (seenUrls ++ [jsToLower a.url]) (seenTitles ++ [titleSourceKey a])
        (acc ++ [a]) rest
    else dedupRouteAux seenUrls seenTitles acc rest

/-- `GET /api/articles` (src/app/api/articles/route.ts:33-106) after
the API-key guards, with the fetch inputs as oracles.  Stored articles
are filtered to `analyzed == true`; new articles are fetched when
`refresh` is set or no analyzed stored article exists; on the
refresh-with-existing branch only unseen fetched articles are prepended;
the merged list is deduplicated and paginated.  Note the endpoint has no
include-unanalyzed parameter and the freshly fetched articles are not
filtered on `analyzed`. -/
def articlesRouteGET (st : BlobStore) (inProg : List String) (now : Int)
    (refresh : Bool) (page pageSize : Nat)
    (items : List (NewsDataArticle × String × Except Unit AnalysisResult)) :
    RouteResponse × BlobStore × List String :=
  let storedArticles := listArticlesFromBlob st
  let analyzedStored := storedArticles.filter (fun a => a.analyzed)
  let shouldFetchNew := refresh || analyzedStored.isEmpty
  let step : List Article × List String × BlobStore × List String :=
    if shouldFetchNew then
      let fs := processHeadlineItems now items
        { store := st, inProg := inProg, articles := [], errors := [] }
      if refresh && !analyzedStored.isEmpty then
        let existingUrls := analyzedStored.map (fun a => jsToLower a.url)
        let existingTitles := analyzedStored.map titleSourceKey
        let newArticles := fs.articles.filter (fun a =>
          !(existingUrls.contains (jsToLower a.url)) &&
          !(existingTitles.contains (titleSourceKey a)))
        (newArticles ++ analyzedStored, fs.errors, fs.store, fs.inProg)
      else
        (fs.articles, fs.errors, fs.store, fs.inProg)
    else
      (analyzedStored, [], st, inProg)
  let unique := dedupRouteAux [] [] [] step.1
  let startIndex := (page - 1) * pageSize
  ({ articles := (unique.drop startIndex).take pageSize
     errors := step.2.1
     totalArticles := unique.length
     hasMore := decide (startIndex + pageSize < unique.length) },
   step.2.2.1, step.2.2.2)

/-! ## Observation helpers and concrete fixtures -/

/-- The durable entries stored under an article id. -/
def durableRecords (st : BlobStore) (id : String) : List BlobEntry :=
  st.entries.filter (fun e => e.pathname == articlePath id)

/-- The pathnames `cleanupOldArticles` passes to the delete call: one
per expired entry, rebuilt from the extracted id. -/
def expiredDeletePaths (now : Int) (l : List BlobEntry) : List String :=
  (l.filter (entryIsExpired now)).map (fun e => articlePath (extractIdFromPath e.pathname))

/-- An all-empty article used as the base of concrete fixtures. -/
def baseArticle : Article :=
  { id := "", title := "", summary := "", content := "", url := "", imageUrl := "",
    source := "", publishedAt := "", metrics := none, storedAt := none,
    analyzed := false, aiSummary := none, categories := [] }

/-- A raw headline item with a source-provided id. -/
def rawA : NewsDataArticle :=
  { article_id := "aid1", title := "T", link := "http://x.com/a", description := "d",
    content := "c", pubDate := "p", image_url := "", source_id := "s", category := [] }

/-- A raw headline item whose `article_id` is missing. -/
def rawNoId : NewsDataArticle :=
  { article_id := "", title := "T2", link := "http://x.com/b", description := "d",
    content := "c", pubDate := "p", image_url := "", source_id := "s", category := [] }

/-- A raw headline item with an empty title. -/
def rawEmptyTitle : NewsDataArticle :=
  { article_id := "aid3", title := "", link := "http://x.com/c", description := "d",
    content := "c", pubDate := "p", image_url := "", source_id := "s", category := [] }

/-- An empty blob store with reliable `put` and `del`. -/
def emptyStore : BlobStore := { entries := [], putFails := [], delFails := [] }

/-- The initial state of a `fetchTopHeadlines` call against the empty
store with nothing in progress. -/
def fetchInit : FetchState :=
  { store := emptyStore, inProg := [], articles := [], errors := [] }

/-- An already-analyzed stored article whose URL carries a tracking
query parameter. -/
def oldArt : Article :=
  { baseArticle with
    id := "old1"
    title := "First headline"
    url := "https://ex.com/a?utm_source=x"
    source := "s"
    metrics := some zeroMetrics
    storedAt := some (.parsable 0)
    analyzed := true
    categories := ["other"] }

/-- A store holding exactly `oldArt`. -/
def dupStore : BlobStore :=
  { entries := [{ pathname := "articles/old1.json", fetch := .ok oldArt }],
    putFails := [], delFails := [] }

/-- A new candidate whose URL differs from `oldArt`'s by protocol, a
`www.` prefix, the query string and a trailing slash. -/
def wwwCandidate : Article :=
  { baseArticle with
    id := "new1"
    title := "Completely different words"
    url := "http://www.ex.com/a/"
    source := "s"
    metrics := some zeroMetrics
    categories := ["other"] }

/-- The same candidate without the `www.` prefix. -/
def protoCandidate : Article := { wwwCandidate with url := "http://ex.com/a/" }

/-- An analyzed article used for write tests. -/
def analyzedB : Article :=
  { baseArticle with
    id := "b1"
    title := "B"
    url := "http://b.com/1"
    analyzed := true
    categories := ["other"] }

/-- A store whose `put` fails for `analyzedB`'s key. -/
def putFailStore : BlobStore :=
  { entries := [], putFails := ["articles/b1.json"], delFails := [] }

/-- Batch articles: `failArt`'s `put` fails in `batchStore`, the
others succeed. -/
def failArt : Article := { analyzedB with id := "f1" }

/-- A batch member whose write succeeds. -/
def okArt : Article := { analyzedB with id := "ok1", summary := "kept" }

/-- Another batch member with its own key. -/
def otherArt : Article := { analyzedB with id := "x1" }

/-- A store failing exactly the `put` of `failArt`. -/
def batchStore : BlobStore :=
  { entries := [], putFails := ["articles/f1.json"], delFails := [] }

/-- A persisted record with populated metrics but `analyzed = false`. -/
def healRaw : Article :=
  { baseArticle with id := "h1", title := "H", metrics := some zeroMetrics }

/-- The blob entry for `healRaw`. -/
def healEntry : BlobEntry := { pathname := articlePath "h1", fetch := .ok healRaw }

/-- A store holding exactly `healRaw`. -/
def healStore : BlobStore := { entries := [healEntry], putFails := [], delFails := [] }

/-- A store whose only entry is expired but whose delete fails. -/
def delFailStore : BlobStore :=
  { entries := [{ pathname := "articles/old1.json", fetch := .ok oldArt }],
    putFails := [], delFails := ["articles/old1.json"] }

/-- A stored article only 200 seconds old at the witness time. -/
def freshArt : Article :=
  { oldArt with id := "fresh1", storedAt := some (.parsable 7000000) }

/-- A store with one expired and one fresh entry, deletes reliable. -/
def cleanupStoreW : BlobStore :=
  { entries := [{ pathname := "articles/old1.json", fetch := .ok oldArt },
                { pathname := "articles/fresh1.json", fetch := .ok freshArt }],
    putFails := [], delFails := [] }

/-- A store holding one analyzed article, for the list-endpoint
stored-only path. -/
def analyzedStoreW : BlobStore :=
  { entries := [{ pathname := "articles/w1.json",
                  fetch := .ok { analyzedB with id := "w1" } }],
    putFails := [], delFails := [] }

/-- Two analyzed-write fixtures sharing one id. -/
def firstWrite : Article := { analyzedB with id := "p1", summary := "first" }

/-- The second write under the same id. -/
def secondWrite : Article := { analyzedB with id := "p1", summary := "second" }

/-- An enrichment response with an out-of-range, a non-numeric, a
negative and an in-range numeric score. -/
def wRaw : RawAIResponse :=
  { clickbaitScore := .num 150, biasScore := .str "abc",
    targetGeneration := .str "Millennials", politicalLeaning := .str "Neutral",
    sentimentScore := .num (-7), sentimentTone := .str "Neutral",
    readabilityScore := .num 55, readingLevel := .str "College",
    emotionalTone := .str "Neutral", emotionTone := .undef,
    categories := some ["politics"] }

/-- A minimal successful analysis result. -/
def anOk : AnalysisResult :=
  { metrics := zeroMetrics, summary := "", aiSummary := "", categories := [] }

/-! ## Helper lemmas -/

theorem storeArticle_putFails_eq (st : BlobStore) (now : Int) (a : Article) :
    ((storeArticle st now a).2).putFails = st.putFails := by
  unfold storeArticle putBlob
  by_cases h : a.analyzed
  · simp [h]
    split <;> rfl
  · simp [h]
    rcases checkDuplicateArticle st a with _ | u
    · simp
      split <;> rfl
    · simp

theorem storeArticles_putFails_eq (st : BlobStore) (now : Int) (l : List Article) :
    (storeArticles st now l).putFails = st.putFails := by
  induction l generalizing st with
  | nil => rfl
  | cons a t ih =>
    show (storeArticles (storeArticle st now a).2 now t).putFails = st.putFails
    rw [ih, storeArticle_putFails_eq]

theorem filter_after_filterNe (l : List BlobEntry) (p : String) :
    (l.filter (fun e => !(e.pathname == p))).filter (fun e => e.pathname == p) = [] := by
  induction l with
  | nil => rfl
  | cons e t ih =>
    by_cases h : e.pathname = p <;> simp [List.filter_cons, h, ih]

theorem filter_putBlob_self (st : BlobStore) (p : String) (a : Article) :
    (putBlob st p a).entries.filter (fun e => e.pathname == p) =
      [{ pathname := p, fetch := .ok a }] := by
  unfold putBlob
  simp [List.filter_append, filter_after_filterNe]

theorem filter_after_filterNe_other (l : List BlobEntry) (p q : String) (h : ¬ q = p) :
    (l.filter (fun e => !(e.pathname == q))).filter (fun e => e.pathname == p) =
      l.filter (fun e => e.pathname == p) := by
  induction l with
  | nil => rfl
  | cons e t ih =>
    by_cases he : e.pathname = q
    · have hep : ¬ e.pathname = p := by rw [he]; exact h
      simp [List.filter_cons, he, hep, h, Ne.symm h, ih]
    · by_cases hep : e.pathname = p <;>
        simp [List.filter_cons, he, hep, h, Ne.symm h, ih]

theorem storeArticle_filter_other (st : BlobStore) (now : Int) (b : Article) (p : String)
    (h : ¬ articlePath b.id = p) :
    ((storeArticle st now b).2).entries.filter (fun e => e.pathname == p) =
      st.entries.filter (fun e => e.pathname == p) := by
  have hput : ∀ a : Article, (putBlob st (articlePath b.id) a).entries.filter
      (fun e => e.pathname == p) = st.entries.filter (fun e => e.pathname == p) := by
    intro a
    unfold putBlob
    simp [List.filter_append, filter_after_filterNe_other st.entries p (articlePath b.id) h, h]
  unfold storeArticle
  by_cases hb : b.analyzed
  · simp only [hb, Bool.not_true, Bool.false_eq_true, if_false]
    split
    · rfl
    · exact hput _
  · simp only [hb, Bool.not_false, if_true]
    rcases checkDuplicateArticle st b with _ | u
    · simp only []
      split
      · rfl
      · exact hput _
    · rfl

theorem storeArticles_filter_other (st : BlobStore) (now : Int) (l : List Article) (p : String)
    (h : l.all (fun b => !(articlePath b.id == p)) = true) :
    (storeArticles st now l).entries.filter (fun e => e.pathname == p) =
      st.entries.filter (fun e => e.pathname == p) := by
  induction l generalizing st with
  | nil => rfl
  | cons a t ih =>
    simp only [List.all_cons, Bool.and_eq_true, Bool.not_eq_true', beq_eq_false_iff_ne,
      ne_eq] at h
    show (storeArticles (storeArticle st now a).2 now t).entries.filter
        (fun e => e.pathname == p) = st.entries.filter (fun e => e.pathname == p)
    rw [ih _ h.2, storeArticle_filter_other st now a p h.1]

theorem mem_dedupRouteAux (l : List Article) :
    ∀ (su st : List String) (acc : List Article) (a : Article),
      a ∈ dedupRouteAux su st acc l → a ∈ acc ∨ a ∈ l := by
  induction l with
  | nil =>
    intro su st acc a h
    exact Or.inl h
  | cons x t ih =>
    intro su st acc a h
    unfold dedupRouteAux at h
    split at h
    · rcases ih _ _ _ _ h with hacc | ht
      · rcases List.mem_append.mp hacc with h1 | h2
        · exact Or.inl h1
        · exact Or.inr (List.mem_cons.mpr (Or.inl (List.mem_singleton.mp h2)))
      · exact Or.inr (List.mem_cons.mpr (Or.inr ht))
    · rcases ih _ _ _ _ h with hacc | ht
      · exact Or.inl hacc
      · exact Or.inr (List.mem_cons.mpr (Or.inr ht))

theorem delBlob_delFails (st : BlobStore) (p : String) :
    (delBlob st p).delFails = st.delFails := by
  unfold delBlob
  split <;> rfl

theorem cleanup_count_aux (now : Int) (l : List BlobEntry) :
    ∀ (s0 : BlobStore) (c0 : Nat),
      (l.foldl (cleanupStep now) (s0, c0)).2 = c0 + (l.filter (entryIsExpired now)).length := by
  induction l with
  | nil => intro s0 c0; simp
  | cons e t ih =>
    intro s0 c0
    by_cases h : entryIsExpired now e = true
    · simp [List.foldl_cons, cleanupStep, h, ih]
      omega
    · simp [List.foldl_cons, cleanupStep, h, ih]

theorem contains_cons_eq (y dp : String) (rest : List String) :
    ((dp :: rest).contains y) = ((y == dp) || rest.contains y) := by
  by_cases h : y = dp <;> simp [h]

theorem filter_entries_comp (l : List BlobEntry) (p q : BlobEntry → Bool) :
    (l.filter p).filter q = l.filter (fun x => p x && q x) := by
  induction l with
  | nil => rfl
  | cons e t ih =>
    by_cases hp : p e = true
    · by_cases hq : q e = true <;> simp [List.filter_cons, hp, hq, ih]
    · simp [List.filter_cons, hp, ih, Bool.and_eq_true]

theorem cleanup_entries_aux (now : Int) (l : List BlobEntry) :
    ∀ (s0 : BlobStore) (c0 : Nat), s0.delFails = [] →
      (l.foldl (cleanupStep now) (s0, c0)).1.entries =
        s0.entries.filter (fun x => !((expiredDeletePaths now l).contains x.pathname)) := by
  induction l with
  | nil =>
    intro s0 c0 _
    simp [expiredDeletePaths]
  | cons e t ih =>
    intro s0 c0 hdel
    by_cases h : entryIsExpired now e = true
    · have hstep : cleanupStep now (s0, c0) e =
          (deleteArticleFromBlob s0 (extractIdFromPath e.pathname), c0 + 1) := by
        simp [cleanupStep, h]
      have hdel1 : (deleteArticleFromBlob s0 (extractIdFromPath e.pathname)).delFails = [] := by
        unfold deleteArticleFromBlob
        rw [delBlob_delFails]; exact hdel
      have hent : (deleteArticleFromBlob s0 (extractIdFromPath e.pathname)).entries =
          s0.entries.filter (fun x =>
            !(x.pathname == articlePath (extractIdFromPath e.pathname))) := by
        unfold deleteArticleFromBlob delBlob
        rw [hdel]
        simp
      rw [List.foldl_cons, hstep, ih _ _ hdel1, hent, filter_entries_comp]
      have hpaths : expiredDeletePaths now (e :: t) =
          articlePath (extractIdFromPath e.pathname) :: expiredDeletePaths now t := by
        simp [expiredDeletePaths, List.filter_cons, h]
      rw [hpaths]
      apply List.filter_congr
      intro x _
      rw [contains_cons_eq]
      simp [Bool.not_or, Bool.and_comm]
    · have hstep : cleanupStep now (s0, c0) e = (s0, c0) := by
        simp [cleanupStep, h]
      have hpaths : expiredDeletePaths now (e :: t) = expiredDeletePaths now t := by
        simp [expiredDeletePaths, List.filter_cons, h]
      rw [List.foldl_cons, hstep, ih _ _ hdel, hpaths]

theorem storeArticle_analyzed_filter (st : BlobStore) (now : Int) (u : Article)
    (hu : u.analyzed = true)
    (hput : st.putFails.contains (articlePath u.id) = false) :
    durableRecords (storeArticle st now u).2 u.id =
      [{ pathname := articlePath u.id,
         fetch := .ok { u with storedAt := some (.parsable now) } }] := by
  have hmem : articlePath u.id ∉ st.putFails := by simpa using hput
  unfold storeArticle durableRecords
  simp [hu, hmem, filter_putBlob_self]

theorem validateNumber_spec (v : JSValue) (d : Int) :
    (jsToNumber v = none → validateNumber v 0 100 d = d) ∧
    (∀ n : Int, jsToNumber v = some n →
      (100 < n → validateNumber v 0 100 d = 100) ∧
      (n < 0 → validateNumber v 0 100 d = 0) ∧
      (0 ≤ n → n ≤ 100 → validateNumber v 0 100 d = n)) := by
  constructor
  · intro h
    unfold validateNumber
    rw [h]
  · intro n h
    unfold validateNumber
    rw [h]
    refine ⟨?_, ?_, ?_⟩
    · intro hn
      simp only [min_def, max_def]
      split_ifs <;> omega
    · intro hn
      simp only [min_def, max_def]
      split_ifs <;> omega
    · intro h0 h100
      simp only [min_def, max_def]
      split_ifs <;> omega

/-! ## Claim theorems -/

/-- Claim C1, counterexample.  For the candidate `rawA` whose
enrichment call fails, the pipeline stores the record with
`analyzed = true` (not `false`) and appends no error to the batch
error list, contradicting the claim at this concrete input. -/
theorem claim1_counterexample :
    (processHeadlineItem 1000 fetchInit rawA "u-1" (Except.error ())).errors = [] ∧
    durableRecords (processHeadlineItem 1000 fetchInit rawA "u-1" (Except.error ())).store
        "aid1" =
      [{ pathname := articlePath "aid1"
         fetch := .ok { mkPendingArticle rawA "u-1" with
           analyzed := true
           storedAt := some (.parsable 1000) } }] := by
  decide

/-- Claim C1, amended.  When the background enrichment call fails, the
durable record is kept (not deleted) but is re-stored with
`analyzed = true` and fallback categories, and no error is appended to
the batch error list: the inner catch swallows the failure and the
task resolves normally. -/
theorem claim1_amended_failure_path (s : FetchState) (raw : NewsDataArticle)
    (uuid : String) (now : Int)
    (hfresh : getArticleFromBlob s.store (inFlightKey raw) = none)
    (hcontent : (mkPendingArticle raw uuid).content ≠ "")
    (hput : s.store.putFails.contains (articlePath (mkPendingArticle raw uuid).id) = false) :
    (processHeadlineItem now s raw uuid (Except.error ())).errors = s.errors ∧
    durableRecords (processHeadlineItem now s raw uuid (Except.error ())).store
        (mkPendingArticle raw uuid).id =
      [{ pathname := articlePath (mkPendingArticle raw uuid).id
         fetch := .ok { mkPendingArticle raw uuid with
           analyzed := true
           categories := if (mkPendingArticle raw uuid).categories ≠ [] then
               (mkPendingArticle raw uuid).categories else ["other"]
           storedAt := some (.parsable now) } }] := by
  constructor
  · simp only [processHeadlineItem]
    rw [hfresh, if_pos hcontent]
  · simp only [processHeadlineItem]
    rw [hfresh, if_pos hcontent]
    simp only [analyzeArticleInBackground]
    have hput1 : ((storeArticle s.store now (mkPendingArticle raw uuid)).2).putFails.contains
        (articlePath (mkPendingArticle raw uuid).id) = false := by
      rw [storeArticle_putFails_eq]; exact hput
    exact storeArticle_analyzed_filter _ now _ rfl hput1

/-- Claim C1, witness for the amended theorem at a concrete input. -/
theorem claim1_witness :
    getArticleFromBlob fetchInit.store (inFlightKey rawA) = none ∧
    (mkPendingArticle rawA "u-1").content ≠ "" ∧
    fetchInit.store.putFails.contains (articlePath (mkPendingArticle rawA "u-1").id) = false ∧
    ((processHeadlineItem 5 fetchInit rawA "u-1" (Except.error ())).errors =
        fetchInit.errors ∧
     durableRecords (processHeadlineItem 5 fetchInit rawA "u-1" (Except.error ())).store
        (mkPendingArticle rawA "u-1").id =
      [{ pathname := articlePath (mkPendingArticle rawA "u-1").id
         fetch := .ok { mkPendingArticle rawA "u-1" with
           analyzed := true
           categories := if (mkPendingArticle rawA "u-1").categories ≠ [] then
               (mkPendingArticle rawA "u-1").categories else ["other"]
           storedAt := some (.parsable 5) } }]) :=
  ⟨by decide, by decide, by decide,
    claim1_amended_failure_path fetchInit rawA "u-1" 5 (by decide) (by decide) (by decide)⟩

/-- Claim C2.  For the raw item `rawNoId`, whose `article_id` is
missing, the in-flight key added before background enrichment is the
article's link, but the `finally` block deletes the generated id
instead, so the link key remains in the in-flight set after the task
completes — contradicting the guaranteed-cleanup claim (and the
code's own comment).  The key added and the leftover key coincide. -/
theorem claim2_bug_marker_left_in_flight :
    inFlightKey rawNoId = "http://x.com/b" ∧
    (processHeadlineItem 1000 fetchInit rawNoId "u-1" (Except.error ())).inProg =
      ["http://x.com/b"] := by
  decide

/-- Claim C3, counterexample.  The stored article's URL
`https://ex.com/a?utm_source=x` and the candidate's URL
`http://www.ex.com/a/` differ only by protocol, a `www.` prefix, a
tracking query parameter and a trailing slash, yet the duplicate
search finds nothing (the normalization never strips `www.`) and
submitting the candidate yields a second durable record. -/
theorem claim3_counterexample :
    checkDuplicateArticle dupStore wwwCandidate = none ∧
    (storeArticle dupStore 5 wwwCandidate).2.entries.length = 2 := by
  decide

/-- Claim C3, amended.  Against a store holding one readable entry,
a candidate whose URL normalizes to the stored URL up to the protocol
(which covers differences of protocol, query string/tracking
parameters and one trailing slash — but not a `www.` prefix) is
recognized as a duplicate, and `storeArticle` returns the existing
locator without writing a second record. -/
theorem claim3_amended_dedup (st : BlobStore) (old a : Article) (pn : String) (now : Int)
    (hentries : st.entries = [{ pathname := pn, fetch := .ok old }])
    (hpn : jsStartsWith pn articlesRoot = true)
    (hurl : old.url ≠ "")
    (hana : a.analyzed = false)
    (hmatch : stripProtocol (normalizeUrl a.url) = stripProtocol (normalizeUrl old.url)) :
    checkDuplicateArticle st a = some (blobUrl pn) ∧
    storeArticle st now a = (blobUrl pn, st) := by
  have hone : (listWithPrefix st articlesRoot).take 50 =
      [{ pathname := pn, fetch := BlobFetch.ok old }] := by
    unfold listWithPrefix
    rw [hentries]
    simp [hpn]
  have hcontent : dupByContent a [{ pathname := pn, fetch := BlobFetch.ok old }] =
      some (blobUrl pn) := by
    unfold dupByContent
    by_cases h2 : normalizeUrl a.url == normalizeUrl old.url
    · simp [hurl, h2]
    · simp [hurl, h2, hmatch]
  have hdup : checkDuplicateArticle st a = some (blobUrl pn) := by
    unfold checkDuplicateArticle
    rw [hone]
    by_cases h1 : extractIdFromPath pn == a.id
    · have hp : dupByPath a [{ pathname := pn, fetch := BlobFetch.ok old }] = none := by
        simp [dupByPath, h1]
      simp [hp, hcontent]
    · by_cases h3 : jsIncludes pn (encodeUriComponentModel a.url)
      · have hp : dupByPath a [{ pathname := pn, fetch := BlobFetch.ok old }] =
            some (blobUrl pn) := by
          simp [dupByPath, h1, h3]
        simp [hp]
      · have hp : dupByPath a [{ pathname := pn, fetch := BlobFetch.ok old }] = none := by
          simp [dupByPath, h1, h3]
        simp [hp, hcontent]
  refine ⟨hdup, ?_⟩
  unfold storeArticle
  simp [hana, hdup]

/-- Claim C3, witness for the amended theorem: the same pair of URLs
minus the `www.` difference is deduplicated to one record. -/
theorem claim3_witness :
    dupStore.entries = [{ pathname := "articles/old1.json", fetch := .ok oldArt }] ∧
    jsStartsWith "articles/old1.json" articlesRoot = true ∧
    oldArt.url ≠ "" ∧
    protoCandidate.analyzed = false ∧
    stripProtocol (normalizeUrl protoCandidate.url) =
      stripProtocol (normalizeUrl oldArt.url) ∧
    (checkDuplicateArticle dupStore protoCandidate = some (blobUrl "articles/old1.json") ∧
     storeArticle dupStore 5 protoCandidate = (blobUrl "articles/old1.json", dupStore)) :=
  ⟨rfl, by decide, by decide, rfl, by decide,
    claim3_amended_dedup dupStore oldArt protoCandidate "articles/old1.json" 5 rfl
      (by decide) (by decide) rfl (by decide)⟩

/-- Claim C4, counterexample.  When the underlying `put` fails,
`storeArticle` does not surface a typed error: it returns the sentinel
string `error:b1` through its ordinary (success-typed) return channel
with the store unchanged, so the caller cannot distinguish the failed
write from a successful one by type. -/
theorem claim4_counterexample :
    storeArticle putFailStore 7 analyzedB = ("error:b1", putFailStore) ∧
    putFailStore.entries = [] := by
  decide

/-- Claim C4, amended.  On a `put` failure `storeArticle` swallows the
error and returns the sentinel string `error:<id>` as a normal result,
leaving the store unchanged; and in a batch, the failure of any item's
write does not prevent a later item from being durably written. -/
theorem claim4_amended_sentinel_and_batch :
    (∀ (st : BlobStore) (now : Int) (b : Article), b.analyzed = true →
      st.putFails.contains (articlePath b.id) = true →
      storeArticle st now b = ("error:" ++ b.id, st)) ∧
    (∀ (st : BlobStore) (now : Int) (pre post : List Article) (a : Article),
      a.analyzed = true →
      st.putFails.contains (articlePath a.id) = false →
      post.all (fun b => !(articlePath b.id == articlePath a.id)) = true →
      durableRecords (storeArticles st now (pre ++ a :: post)) a.id =
        [{ pathname := articlePath a.id,
           fetch := .ok { a with storedAt := some (.parsable now) } }]) := by
  constructor
  · intro st now b hb hput
    have hmem : articlePath b.id ∈ st.putFails := by simpa using hput
    unfold storeArticle
    simp [hb, hmem]
  · intro st now pre post a ha hput hpost
    have e1 : storeArticles st now (pre ++ a :: post) =
        storeArticles (storeArticle (storeArticles st now pre) now a).2 now post := by
      unfold storeArticles
      rw [List.foldl_append, List.foldl_cons]
    have hputF : (storeArticles st now pre).putFails.contains (articlePath a.id) = false := by
      rw [storeArticles_putFails_eq]; exact hput
    have e2 := storeArticle_analyzed_filter (storeArticles st now pre) now a ha hputF
    rw [e1]
    unfold durableRecords at e2 ⊢
    rw [storeArticles_filter_other _ now post (articlePath a.id) hpost]
    exact e2

/-- Claim C4, witness: the sentinel at a concrete failing write, and a
batch in which the first item's write fails while a later item is
still durably written. -/
theorem claim4_witness :
    analyzedB.analyzed = true ∧
    putFailStore.putFails.contains (articlePath analyzedB.id) = true ∧
    storeArticle putFailStore 7 analyzedB = ("error:" ++ analyzedB.id, putFailStore) ∧
    (okArt.analyzed = true ∧
     batchStore.putFails.contains (articlePath okArt.id) = false ∧
     [otherArt].all (fun b => !(articlePath b.id == articlePath okArt.id)) = true ∧
     durableRecords (storeArticles batchStore 9 ([failArt] ++ okArt :: [otherArt])) okArt.id =
       [{ pathname := articlePath okArt.id,
          fetch := .ok { okArt with storedAt := some (.parsable 9) } }]) :=
  ⟨rfl, by decide,
    claim4_amended_sentinel_and_batch.1 putFailStore 7 analyzedB rfl (by decide),
    rfl, by decide, by decide,
    claim4_amended_sentinel_and_batch.2 batchStore 9 [failArt] [otherArt] okArt rfl
      (by decide) (by decide)⟩

/-- Claim C5, counterexample.  With an empty store and no refresh
requested (the endpoint has no include-unanalyzed parameter at all),
the route takes the fetch path and returns the freshly created pending
article with `analyzed = false` — the returned list is not filtered to
analyzed articles. -/
theorem claim5_counterexample :
    (articlesRouteGET emptyStore [] 1000 false 1 5
        [(rawA, "u-1", Except.error ())]).1.articles.map (fun a => a.analyzed) = [false] := by
  decide

/-- Claim C5, amended.  On the stored-only path (no refresh requested
and at least one analyzed stored article), every article the endpoint
returns has `analyzed = true`; the freshly fetched articles of the
fetch path are not filtered this way. -/
theorem claim5_amended_stored_filter (st : BlobStore) (inProg : List String) (now : Int)
    (page pageSize : Nat)
    (items : List (NewsDataArticle × String × Except Unit AnalysisResult))
    (h : ((listArticlesFromBlob st).filter (fun a => a.analyzed)).isEmpty = false) :
    ∀ a ∈ (articlesRouteGET st inProg now false page pageSize items).1.articles,
      a.analyzed = true := by
  intro a ha
  simp only [articlesRouteGET, Bool.false_or, h, Bool.false_eq_true, if_false] at ha
  have h1 := List.take_subset _ _ ha
  have h2 := List.drop_subset _ _ h1
  rcases mem_dedupRouteAux _ _ _ _ _ h2 with hx | hx
  · exact absurd hx (List.not_mem_nil a)
  · exact (List.mem_filter.mp hx).2

/-- Claim C5, witness for the amended theorem. -/
theorem claim5_witness :
    ((listArticlesFromBlob analyzedStoreW).filter (fun a => a.analyzed)).isEmpty = false ∧
    ∀ a ∈ (articlesRouteGET analyzedStoreW [] 0 false 1 5 []).1.articles,
      a.analyzed = true :=
  ⟨by decide, claim5_amended_stored_filter analyzedStoreW [] 0 1 5 [] (by decide)⟩

/-- Claim C6, counterexample.  A raw item with an empty title is not
dropped: it is processed into a pending article (with empty title)
while the error list stays empty, so the batch returns one article,
not zero. -/
theorem claim6_counterexample :
    ((processHeadlineItem 1000 fetchInit rawEmptyTitle "u-1" (Except.ok anOk)).articles.map
      (fun a => a.title)) = [""] ∧
    (processHeadlineItem 1000 fetchInit rawEmptyTitle "u-1" (Except.ok anOk)).errors = [] := by
  decide

/-- Claim C6, amended.  `fetchTopHeadlines` has no title filter: every
fresh raw item — whatever its title, including the empty one — is
processed into a pending article that is appended to the results, and
no error entry is produced for it. -/
theorem claim6_amended_no_title_drop (s : FetchState) (raw : NewsDataArticle)
    (uuid : String) (now : Int) (ai : Except Unit AnalysisResult)
    (hfresh : getArticleFromBlob s.store (inFlightKey raw) = none) :
    (processHeadlineItem now s raw uuid ai).articles =
      s.articles ++ [mkPendingArticle raw uuid] ∧
    (processHeadlineItem now s raw uuid ai).errors = s.errors := by
  constructor <;>
  · simp only [processHeadlineItem]
    rw [hfresh]
    split
    · rename_i heq
      exact Option.noConfusion heq
    · split <;> rfl

/-- Claim C6, witness for the amended theorem. -/
theorem claim6_witness :
    getArticleFromBlob fetchInit.store (inFlightKey rawA) = none ∧
    ((processHeadlineItem 3 fetchInit rawA "u-9" (Except.error ())).articles =
      fetchInit.articles ++ [mkPendingArticle rawA "u-9"] ∧
     (processHeadlineItem 3 fetchInit rawA "u-9" (Except.error ())).errors =
      fetchInit.errors) :=
  ⟨by decide, claim6_amended_no_title_drop fetchInit rawA "u-9" 3 (Except.error ()) (by decide)⟩

/-- Claim C7.  Writing the same id twice with `analyzed = true` both
times leaves exactly one durable record under that id, holding the
second write's data stamped at the second write time; and for an
analyzed article `storeArticle` is exactly the direct put on any
store — no duplicate search is consulted. -/
theorem claim7_idempotent_overwrite (st : BlobStore) (t1 t2 : Int) (a b : Article)
    (hid : b.id = a.id) (_ha : a.analyzed = true) (hb : b.analyzed = true)
    (hput : st.putFails.contains (articlePath a.id) = false) :
    durableRecords (storeArticle (storeArticle st t1 a).2 t2 b).2 a.id =
      [{ pathname := articlePath a.id,
         fetch := .ok { b with storedAt := some (.parsable t2) } }] ∧
    (∀ (st2 : BlobStore) (now : Int),
      storeArticle st2 now b =
        (if st2.putFails.contains (articlePath b.id) then ("error:" ++ b.id, st2)
         else (blobUrl (articlePath b.id),
           putBlob st2 (articlePath b.id) { b with storedAt := some (.parsable now) }))) := by
  constructor
  · have h1 : ((storeArticle st t1 a).2).putFails.contains (articlePath b.id) = false := by
      rw [storeArticle_putFails_eq, hid]; exact hput
    have h2 := storeArticle_analyzed_filter (storeArticle st t1 a).2 t2 b hb h1
    rw [← hid]
    exact h2
  · intro st2 now
    unfold storeArticle
    simp [hb]

/-- Claim C7, witness. -/
theorem claim7_witness :
    secondWrite.id = firstWrite.id ∧
    firstWrite.analyzed = true ∧
    secondWrite.analyzed = true ∧
    emptyStore.putFails.contains (articlePath firstWrite.id) = false ∧
    durableRecords (storeArticle (storeArticle emptyStore 1 firstWrite).2 2 secondWrite).2
        firstWrite.id =
      [{ pathname := articlePath firstWrite.id,
         fetch := .ok { secondWrite with storedAt := some (.parsable 2) } }] ∧
    storeArticle dupStore 11 secondWrite =
      (if dupStore.putFails.contains (articlePath secondWrite.id) then
        ("error:" ++ secondWrite.id, dupStore)
       else (blobUrl (articlePath secondWrite.id),
         putBlob dupStore (articlePath secondWrite.id)
           { secondWrite with storedAt := some (.parsable 11) })) :=
  ⟨rfl, rfl, rfl, by decide,
    (claim7_idempotent_overwrite emptyStore 1 2 firstWrite secondWrite rfl rfl rfl
      (by decide)).1,
    (claim7_idempotent_overwrite emptyStore 1 2 firstWrite secondWrite rfl rfl rfl
      (by decide)).2 dupStore 11⟩

/-- Claim C8.  `getArticleFromBlob` never throws: a missing record,
malformed JSON, an HTTP error status and a network/timeout failure all
collapse to `none`; and a readable record with a populated `metrics`
object but `analyzed = false` is returned with `analyzed` coerced to
`true`. -/
theorem claim8_getById_total_and_healing (st : BlobStore) (id : String) :
    ((listWithPrefix st (articlePath id)).head? = none → getArticleFromBlob st id = none) ∧
    (∀ e : BlobEntry, (listWithPrefix st (articlePath id)).head? = some e →
      (e.fetch = .malformed → getArticleFromBlob st id = none) ∧
      (e.fetch = .netFail → getArticleFromBlob st id = none) ∧
      (∀ c : Nat, e.fetch = .httpStatus c → getArticleFromBlob st id = none) ∧
      (∀ raw : Article, e.fetch = .ok raw → raw.metrics.isSome = true →
        raw.analyzed = false →
        getArticleFromBlob st id = some { raw with analyzed := true })) := by
  constructor
  · intro h
    unfold getArticleFromBlob
    rw [h]
  · intro e he
    refine ⟨?_, ?_, ?_, ?_⟩
    · intro hf
      unfold getArticleFromBlob
      rw [he]
      simp [hf]
    · intro hf
      unfold getArticleFromBlob
      rw [he]
      simp [hf]
    · intro c hf
      unfold getArticleFromBlob
      rw [he]
      simp [hf]
    · intro raw hf hm hana
      unfold getArticleFromBlob
      rw [he]
      simp [hf, hm, hana]

/-- Claim C8, witness: the self-healing branch at a concrete store. -/
theorem claim8_witness :
    (listWithPrefix healStore (articlePath "h1")).head? = some healEntry ∧
    healEntry.fetch = .ok healRaw ∧
    healRaw.metrics.isSome = true ∧
    healRaw.analyzed = false ∧
    getArticleFromBlob healStore "h1" = some { healRaw with analyzed := true } :=
  ⟨by decide, rfl, rfl, rfl,
    ((claim8_getById_total_and_healing healStore "h1").2 healEntry (by decide)).2.2.2
      healRaw rfl rfl rfl⟩

/-- Claim C9, counterexample.  The only entry of `delFailStore` is two
hours old against the one-hour TTL, but its underlying delete fails;
the failure is swallowed, the entry survives, and cleanup still
reports `1` — so the returned number exceeds the count of entries
actually deleted (zero). -/
theorem claim9_counterexample :
    cleanupOldArticles delFailStore 7200000 = (delFailStore, 1) ∧
    delFailStore.entries.length = 1 := by
  decide

/-- Claim C9, amended.  When the underlying deletes succeed, cleanup
deletes exactly the scanned entries whose fetched record has a
parseable `storedAt` strictly older than the TTL — entries with a
missing or unparsable `storedAt` and entries whose fetch or parse
fails are retained — and the returned number equals the count of
expired entries (which in general counts delete attempts, not
successful deletes). -/
theorem claim9_amended_cleanup (st : BlobStore) (now : Int)
    (hdel : st.delFails = [])
    (hpaths : (listWithPrefix st articlesRoot).all
      (fun e => pathRoundTrips e.pathname) = true) :
    (cleanupOldArticles st now).2 =
      ((listWithPrefix st articlesRoot).filter (entryIsExpired now)).length ∧
    (cleanupOldArticles st now).1.entries =
      st.entries.filter (fun x =>
        !((((listWithPrefix st articlesRoot).filter (entryIsExpired now)).map
            (fun e => e.pathname)).contains x.pathname)) := by
  constructor
  · unfold cleanupOldArticles
    rw [cleanup_count_aux now _ st 0]
    exact Nat.zero_add _
  · unfold cleanupOldArticles
    rw [cleanup_entries_aux now _ st 0 hdel]
    have hmap : expiredDeletePaths now (listWithPrefix st articlesRoot) =
        ((listWithPrefix st articlesRoot).filter (entryIsExpired now)).map
          (fun e => e.pathname) := by
      unfold expiredDeletePaths
      apply List.map_congr_left
      intro e he
      have he2 : e ∈ listWithPrefix st articlesRoot := List.mem_of_mem_filter he
      have h3 := List.all_eq_true.mp hpaths e he2
      unfold pathRoundTrips at h3
      exact eq_of_beq h3
    rw [hmap]

/-- Claim C9, witness: a store with one expired and one fresh entry
and reliable deletes. -/
theorem claim9_witness :
    cleanupStoreW.delFails = [] ∧
    (listWithPrefix cleanupStoreW articlesRoot).all
      (fun e => pathRoundTrips e.pathname) = true ∧
    ((cleanupOldArticles cleanupStoreW 7200000).2 =
      ((listWithPrefix cleanupStoreW articlesRoot).filter
        (entryIsExpired 7200000)).length ∧
     (cleanupOldArticles cleanupStoreW 7200000).1.entries =
      cleanupStoreW.entries.filter (fun x =>
        !((((listWithPrefix cleanupStoreW articlesRoot).filter
            (entryIsExpired 7200000)).map (fun e => e.pathname)).contains x.pathname))) :=
  ⟨rfl, by decide, claim9_amended_cleanup cleanupStoreW 7200000 rfl (by decide)⟩

/-- Claim C10.  Each numeric score the enrichment validator reads
(`clickbaitScore`, `biasScore`, `sentimentScore`, `readabilityScore`)
is coerced into `[0, 100]`: a value coercing to NaN (such as a
non-numeric string) yields the field's fixed default (50, 50, 50 and
70 respectively), a value above 100 is stored as 100, a value below 0
is stored as 0, and an in-range value is kept; the validator is total,
so no bad value makes the enrichment call crash. -/
theorem claim10_clamp (r : RawAIResponse) :
    ((jsToNumber r.clickbaitScore = none → (validateAIMetrics r).clickbaitScore = 50) ∧
     (∀ n : Int, jsToNumber r.clickbaitScore = some n →
       (100 < n → (validateAIMetrics r).clickbaitScore = 100) ∧
       (n < 0 → (validateAIMetrics r).clickbaitScore = 0) ∧
       (0 ≤ n → n ≤ 100 → (validateAIMetrics r).clickbaitScore = n))) ∧
    ((jsToNumber r.biasScore = none → (validateAIMetrics r).biasScore = 50) ∧
     (∀ n : Int, jsToNumber r.biasScore = some n →
       (100 < n → (validateAIMetrics r).biasScore = 100) ∧
       (n < 0 → (validateAIMetrics r).biasScore = 0) ∧
       (0 ≤ n → n ≤ 100 → (validateAIMetrics r).biasScore = n))) ∧
    ((jsToNumber r.sentimentScore = none → (validateAIMetrics r).sentimentScore = 50) ∧
     (∀ n : Int, jsToNumber r.sentimentScore = some n →
       (100 < n → (validateAIMetrics r).sentimentScore = 100) ∧
       (n < 0 → (validateAIMetrics r).sentimentScore = 0) ∧
       (0 ≤ n → n ≤ 100 → (validateAIMetrics r).sentimentScore = n))) ∧
    ((jsToNumber r.readabilityScore = none → (validateAIMetrics r).readabilityScore = 70) ∧
     (∀ n : Int, jsToNumber r.readabilityScore = some n →
       (100 < n → (validateAIMetrics r).readabilityScore = 100) ∧
       (n < 0 → (validateAIMetrics r).readabilityScore = 0) ∧
       (0 ≤ n → n ≤ 100 → (validateAIMetrics r).readabilityScore = n))) :=
  ⟨validateNumber_spec r.clickbaitScore 50, validateNumber_spec r.biasScore 50,
   validateNumber_spec r.sentimentScore 50, validateNumber_spec r.readabilityScore 70⟩

/-- Claim C10, witness: `clickbaitScore: 150` is stored as 100,
`biasScore: "abc"` falls back to the default 50, a negative sentiment
score is stored as 0, and an in-range readability score is kept. -/
theorem claim10_witness :
    jsToNumber wRaw.clickbaitScore = some 150 ∧
    (validateAIMetrics wRaw).clickbaitScore = 100 ∧
    jsToNumber wRaw.biasScore = none ∧
    (validateAIMetrics wRaw).biasScore = 50 ∧
    jsToNumber wRaw.sentimentScore = some (-7) ∧
    (validateAIMetrics wRaw).sentimentScore = 0 ∧
    jsToNumber wRaw.readabilityScore = some 55 ∧
    (validateAIMetrics wRaw).readabilityScore = 55 :=
  ⟨by decide, ((claim10_clamp wRaw).1.2 150 (by decide)).1 (by decide),
   by decide, (claim10_clamp wRaw).2.1.1 (by decide),
   by decide, ((claim10_clamp wRaw).2.2.1.2 (-7) (by decide)).2.1 (by decide),
   by decide, ((claim10_clamp wRaw).2.2.2.2 55 (by decide)).2.2 (by decide) (by decide)⟩

end NewsAgg
